import Mathlib

/-!
Verification development for a line-counting benchmark repository.

The repository counts lines of a text file in several ways:
sequential readers (basic_readline.py, buffered_read.py, chunked_readlines.py)
and two parallel fork-join dispatchers (thread_pool.py, multiprocess_pool.py)
that split the file into byte ranges and count per range.

We model a file as the list of its bytes (List Nat, newline = 10), and
translate each Python function into a pure Lean function.  File positions,
seek, read and readline are modelled explicitly; a seek past end of file
leaves the position there and subsequent reads return nothing, matching
binary-mode Python file objects.  The concurrency of the dispatchers is
modelled as in-order evaluation of the per-chunk tasks followed by the sum,
which is faithful because the workers are independent read-only tasks and
iterating the map of results re-raises the first worker exception before
the sum can complete.
-/

/-- Number of newline bytes in a byte string (Python bytes.count of the
newline byte). -/
def countNL (bs : List Nat) : Nat := bs.countP (fun b => b == 10)

/-- Position of a binary file object after f.readline() issued at position p
on a file with the given bytes: one past the next newline at or after p, or
end of file if there is none, or p itself if p is already at or past end of
file. -/
def readlineEnd (file : List Nat) (p : Nat) : Nat :=
  match (file.drop p).findIdx? (fun b => b == 10) with
  | some k => p + k + 1
  | none => max p file.length

/-- Python exceptions that the dispatchers can raise: ZeroDivisionError from
the chunk-size floor division when the worker count is 0, ValueError from
the executor or pool constructor when the worker count is negative, and
OSError for a failed file operation inside a worker. -/
inductive PyErr where
  | zeroDivisionError
  | valueError
  | osError
deriving DecidableEq

/-- Collecting the results of executor.map or pool.map in order: the first
worker exception, if any, is re-raised; otherwise the list of values. -/
def collectResults : List (Except PyErr Nat) → Except PyErr (List Nat)
  | [] => Except.ok []
  | r :: rest => do
    let x ← r
    let xs ← collectResults rest
    return x :: xs

/-- The shared dispatcher skeleton of both parallel variants: run the chunk
counter on every (start, end) chunk, collect the results, and sum them. -/
def dispatch_map_sum (cnt : Nat → Nat → Except PyErr Nat)
    (chunks : List (Nat × Nat)) : Except PyErr Nat := do
  let rs ← collectResults (chunks.map (fun c => cnt c.1 c.2))
  return rs.sum

namespace ThreadPool

/-- Translation of count_lines_in_chunk from thread_pool.py.  The function
seeks to start; if start is not 0 and the byte before start is not a
newline it calls readline to skip the straddling line, adding 1 only when
that readline read something and left the position strictly before the
chunk end; it then reads the remaining end - tell bytes (if positive) and
adds the number of newline bytes among them. -/
def count_lines_in_chunk (file : List Nat) (start fin : Nat) : Nat :=
  let skip :=
    if start ≠ 0 ∧ file[start - 1]? ≠ some 10 then
      (if start < file.length ∧ readlineEnd file start < fin then 1 else 0,
       readlineEnd file start)
    else
      (0, start)
  skip.1 +
    (if skip.2 < fin then countNL ((file.drop skip.2).take (fin - skip.2))
     else 0)

/-- Chunk i of the partition loop in read_lines_threaded: start is
i * (file_size / n); end is file_size for the last chunk and
(i + 1) * (file_size / n) otherwise. -/
def chunkOf (file_size n i : Nat) : Nat × Nat :=
  (i * (file_size / n),
   if i = n - 1 then file_size else (i + 1) * (file_size / n))

/-- The chunk list built by the loop in read_lines_threaded. -/
def mkChunks (file_size n : Nat) : List (Nat × Nat) :=
  (List.range n).map (chunkOf file_size n)

/-- Translation of read_lines_threaded from thread_pool.py.  The worker
count is a Python int: 0 makes the chunk-size floor division raise
ZeroDivisionError, a negative count makes the ThreadPoolExecutor
constructor raise ValueError; otherwise the chunk counters run on the
partition of the file and their results are summed. -/
def read_lines_threaded (file : List Nat) (num_threads : Int) :
    Except PyErr Nat :=
  if num_threads = 0 then Except.error PyErr.zeroDivisionError
  else if num_threads < 0 then Except.error PyErr.valueError
  else
    dispatch_map_sum (fun s e => Except.ok (count_lines_in_chunk file s e))
      (mkChunks file.length num_threads.toNat)

end ThreadPool

namespace MultiprocessPool

/-- Translation of count_lines_in_chunk from multiprocess_pool.py; apart
from receiving its arguments as one tuple, its body is the same as the
thread_pool.py version. -/
def count_lines_in_chunk (file : List Nat) (start fin : Nat) : Nat :=
  let skip :=
    if start ≠ 0 ∧ file[start - 1]? ≠ some 10 then
      (if start < file.length ∧ readlineEnd file start < fin then 1 else 0,
       readlineEnd file start)
    else
      (0, start)
  skip.1 +
    (if skip.2 < fin then countNL ((file.drop skip.2).take (fin - skip.2))
     else 0)

/-- Chunk i of the partition loop in read_lines_multiprocess. -/
def chunkOf (file_size n i : Nat) : Nat × Nat :=
  (i * (file_size / n),
   if i = n - 1 then file_size else (i + 1) * (file_size / n))

/-- The chunk list built by the loop in read_lines_multiprocess. -/
def mkChunks (file_size n : Nat) : List (Nat × Nat) :=
  (List.range n).map (chunkOf file_size n)

/-- Translation of read_lines_multiprocess from multiprocess_pool.py: same
structure as read_lines_threaded, with the Pool constructor raising
ValueError on a negative process count. -/
def read_lines_multiprocess (file : List Nat) (num_processes : Int) :
    Except PyErr Nat :=
  if num_processes = 0 then Except.error PyErr.zeroDivisionError
  else if num_processes < 0 then Except.error PyErr.valueError
  else
    dispatch_map_sum (fun s e => Except.ok (count_lines_in_chunk file s e))
      (mkChunks file.length num_processes.toNat)

end MultiprocessPool

/-!
Sequential readers.  These open the file in text mode; iterating the file
object yields one string per line, where a line break is a newline byte, a
carriage-return byte, or a carriage-return followed by a newline
(universal-newline translation), and a trailing run of bytes with no final
break still yields one last line.  All legal UTF-8 multi-byte sequences
use bytes at or above 128, so scanning raw bytes for the break bytes 10
and 13 agrees with scanning the decoded text.  The iteration is modelled
as the list of lines of the byte string, each line given with its
translated break (13,10 and 13 both become 10), since only the lines as
yielded, not the buffer sizes, reach the counting loops.
-/

/-- The lines yielded by iterating a text-mode Python file object over the
given bytes, with universal-newline translation; cur accumulates the bytes
of the current line in reverse. -/
def textLinesAux (cur : List Nat) : List Nat → List (List Nat)
  | [] => if cur = [] then [] else [cur.reverse]
  | 13 :: 10 :: rest => (cur.reverse ++ [10]) :: textLinesAux [] rest
  | 13 :: rest => (cur.reverse ++ [10]) :: textLinesAux [] rest
  | 10 :: rest => (cur.reverse ++ [10]) :: textLinesAux [] rest
  | b :: rest => textLinesAux (b :: cur) rest

/-- All lines of a text file given as its bytes. -/
def textLines (file : List Nat) : List (List Nat) := textLinesAux [] file

/-- Translation of read_lines_basic from basic_readline.py: iterate over
the lines of the file, adding 1 per line. -/
def read_lines_basic (file : List Nat) : Nat := (textLines file).length

/-- Translation of read_lines_buffered from buffered_read.py: the same
loop as read_lines_basic; the buffer size changes only the I/O block
size, not the sequence of lines the iteration yields. -/
def read_lines_buffered (file : List Nat) (buffer_size : Nat) : Nat :=
  (textLines file).length

/-- Number of lines one f.readlines(hint) call returns when the remaining
lines of the file are the given list: lines are accumulated until their
total size reaches the hint. -/
def takeHint (hint : Nat) : List (List Nat) → Nat
  | [] => 0
  | l :: ls => if hint ≤ l.length then 1 else 1 + takeHint (hint - l.length) ls

/-- Loop of read_lines_chunked over the lines of the file: each iteration
takes one readlines(hint) batch and adds its length, until no lines
remain. -/
def chunkedCount (hint : Nat) (ls : List (List Nat)) : Nat :=
  if h : ls = [] then 0
  else
    takeHint hint ls + chunkedCount hint (ls.drop (takeHint hint ls))
termination_by ls.length
decreasing_by
  have h1 : 1 ≤ takeHint hint ls := by
    cases ls with
    | nil => exact absurd rfl h
    | cons l rest =>
      unfold takeHint
      split <;> omega
  have h2 : ls.length ≠ 0 := fun hz => h (List.eq_nil_of_length_eq_zero hz)
  simp only [List.length_drop]
  omega

/-- Translation of read_lines_chunked from chunked_readlines.py: repeated
readlines(chunk_size) calls, summing the number of lines returned. -/
def read_lines_chunked (file : List Nat) (chunk_size : Nat) : Nat :=
  chunkedCount chunk_size (textLines file)

/-!
Helper lemmas.
-/

/-- A readline call never moves the position backwards. -/
theorem readlineEnd_ge (file : List Nat) (p : Nat) : p ≤ readlineEnd file p := by
  unfold readlineEnd
  split
  · omega
  · exact Nat.le_max_left _ _

/-- The chunk counter returns 0 on any range whose end does not exceed its
start: the skipped straddling line can never end strictly before such an
end, and the remaining span to read is empty or negative. -/
theorem count_chunk_zero_of_le (file : List Nat) (s e : Nat) (h : e ≤ s) :
    ThreadPool.count_lines_in_chunk file s e = 0 := by
  have hge := readlineEnd_ge file s
  simp only [ThreadPool.count_lines_in_chunk]
  split_ifs <;> omega

/-- On a range starting at byte 0 the chunk counter is a plain newline-byte
count over the first e bytes of the file. -/
theorem count_chunk_start_zero (file : List Nat) (e : Nat) :
    ThreadPool.count_lines_in_chunk file 0 e = countNL (file.take e) := by
  simp only [ThreadPool.count_lines_in_chunk]
  rw [if_neg (by simp)]
  rcases Nat.eq_zero_or_pos e with he | he
  · subst he
    rw [if_neg (by omega)]
    simp [countNL]
  · rw [if_pos (by omega)]
    simp

/-- Collecting results of workers that all succeed yields their values. -/
theorem collect_ok_map {α : Type} (g : α → Nat) (l : List α) :
    collectResults (l.map (fun c => Except.ok (g c))) = Except.ok (l.map g) := by
  induction l with
  | nil => rfl
  | cons a rest ih =>
    simp only [List.map_cons, collectResults, ih]
    rfl

/-- A dispatch whose chunk counter never fails returns the sum of the
per-chunk counts. -/
theorem dispatch_ok (cnt : Nat → Nat → Nat) (chunks : List (Nat × Nat)) :
    dispatch_map_sum (fun s e => Except.ok (cnt s e)) chunks =
      Except.ok ((chunks.map (fun c => cnt c.1 c.2)).sum) := by
  simp only [dispatch_map_sum]
  rw [collect_ok_map (fun c => cnt c.1 c.2) chunks]
  rfl

/-- If any worker result is an exception, collecting the results raises an
exception instead of producing a value list. -/
theorem collect_error (rs : List (Except PyErr Nat)) (r : Except PyErr Nat)
    (hr : r ∈ rs) (e : PyErr) (he : r = Except.error e) :
    ∃ e2, collectResults rs = Except.error e2 := by
  induction rs with
  | nil => cases hr
  | cons a rest ih =>
    rcases List.mem_cons.mp hr with h1 | h1
    · subst h1 he
      exact ⟨e, rfl⟩
    · rcases a with ea | va
      · exact ⟨ea, rfl⟩
      · rcases ih h1 with ⟨e2, h2⟩
        refine ⟨e2, ?_⟩
        simp only [collectResults, h2]
        rfl

/-- A dispatch over chunks on which some counter call fails is itself a
failure. -/
theorem dispatch_fail_fast_aux (cnt : Nat → Nat → Except PyErr Nat)
    (chunks : List (Nat × Nat)) (c : Nat × Nat) (hc : c ∈ chunks) (e : PyErr)
    (he : cnt c.1 c.2 = Except.error e) :
    ∃ e2, dispatch_map_sum cnt chunks = Except.error e2 := by
  rcases collect_error (chunks.map (fun d => cnt d.1 d.2)) (cnt c.1 c.2)
      (List.mem_map_of_mem _ hc) e he with ⟨e2, h2⟩
  refine ⟨e2, ?_⟩
  simp only [dispatch_map_sum, h2]
  rfl

/-- One readlines(hint) call on a nonempty line list returns at least one
line. -/
theorem takeHint_pos (hint : Nat) (ls : List (List Nat)) (h : ls ≠ []) :
    1 ≤ takeHint hint ls := by
  match ls with
  | [] => exact absurd rfl h
  | l :: rest =>
    unfold takeHint
    split <;> omega

/-- One readlines(hint) call returns at most the lines that remain. -/
theorem takeHint_le (hint : Nat) (ls : List (List Nat)) :
    takeHint hint ls ≤ ls.length := by
  induction ls generalizing hint with
  | nil => simp [takeHint]
  | cons l rest ih =>
    unfold takeHint
    split
    · simp
    · have := ih (hint - l.length)
      simp only [List.length_cons]
      omega

/-- The readlines loop visits every line exactly once, so its total over
any line list is the length of the list (induction on a length bound). -/
theorem chunkedCount_bounded (hint : Nat) :
    ∀ (n : Nat) (ls : List (List Nat)), ls.length ≤ n →
      chunkedCount hint ls = ls.length := by
  intro n
  induction n with
  | zero =>
    intro ls h
    have hz : ls = [] := List.eq_nil_of_length_eq_zero (Nat.le_zero.mp h)
    subst hz
    rw [chunkedCount]
    simp
  | succ n ih =>
    intro ls h
    rw [chunkedCount]
    split
    · rename_i hz
      subst hz
      rfl
    · rename_i hz
      have hk1 := takeHint_pos hint ls hz
      have hk2 := takeHint_le hint ls
      have hlen : (ls.drop (takeHint hint ls)).length ≤ n := by
        simp only [List.length_drop]
        have : ls.length ≠ 0 := fun hc => hz (List.eq_nil_of_length_eq_zero hc)
        omega
      rw [ih _ hlen]
      simp only [List.length_drop]
      omega

/-- The readlines loop counts exactly the number of lines. -/
theorem chunkedCount_len (hint : Nat) (ls : List (List Nat)) :
    chunkedCount hint ls = ls.length :=
  chunkedCount_bounded hint ls.length ls le_rfl

/-- Element i of the chunk list is the chunk computed by iteration i of the
partition loop. -/
theorem mkChunks_getElem (fs n i : Nat) (h : i < n) :
    (ThreadPool.mkChunks fs n)[i]? = some (ThreadPool.chunkOf fs n i) := by
  simp [ThreadPool.mkChunks, List.getElem?_map, List.getElem?_range, h]

/-- On an empty file every chunk of the partition is the empty range. -/
theorem chunkOf_empty (n i : Nat) : ThreadPool.chunkOf 0 n i = (0, 0) := by
  simp [ThreadPool.chunkOf]

/-!
Claim theorems.
-/

/-- Claim C1 (partition-invariance) fails on the code: on the six-byte file
with bytes a b c d e newline, the dispatch returns 1 with one worker but 0
with two workers (and likewise for the process-based variant), while the
file holds one newline and the sequential reader counts one line.  The
cause is the straddle test in count_lines_in_chunk, which compares the
position after the straddling line (terminator position plus one) with the
chunk end instead of comparing the terminator position itself, so the line
ending exactly at the second chunk's last byte is counted by no chunk. -/
theorem partition_invariance_fails_eval :
    ThreadPool.read_lines_threaded [97, 98, 99, 100, 101, 10] 1 = Except.ok 1 ∧
    ThreadPool.read_lines_threaded [97, 98, 99, 100, 101, 10] 2 = Except.ok 0 ∧
    MultiprocessPool.read_lines_multiprocess [97, 98, 99, 100, 101, 10] 2 =
      Except.ok 0 ∧
    countNL [97, 98, 99, 100, 101, 10] = 1 ∧
    read_lines_basic [97, 98, 99, 100, 101, 10] = 1 := by
  refine ⟨rfl, rfl, rfl, rfl, rfl⟩

/-- Claim C2 (straddling-line attribution) fails on the code: in the file
with bytes a b c d e newline, the chunk from 3 to 6 starts mid-line (byte 2
is the letter c, not a newline), the straddling line's terminator sits at
position 5, strictly below the chunk end 6 (readline from 3 stops at 6),
yet the chunk counts 0 because the code tests position-after-line below
end; the chunk from 0 to 3 also counts 0, so this line is counted by no
chunk rather than exactly one. -/
theorem straddling_line_lost_eval :
    readlineEnd [97, 98, 99, 100, 101, 10] 3 = 6 ∧
    [97, 98, 99, 100, 101, 10][5]? = some 10 ∧
    [97, 98, 99, 100, 101, 10][2]? = some 99 ∧
    ThreadPool.count_lines_in_chunk [97, 98, 99, 100, 101, 10] 3 6 = 0 ∧
    ThreadPool.count_lines_in_chunk [97, 98, 99, 100, 101, 10] 0 3 = 0 := by
  refine ⟨rfl, rfl, rfl, rfl, rfl⟩

/-- Claim C3 (single-line files count as 1 for every worker count) fails on
the code: for the file abc with no terminator the dispatch returns 0 for
every worker count (an unterminated final line is never counted, since a
start-0 chunk only counts newline bytes), and for the file abc newline the
dispatch returns 0 already at two workers (the terminator at position 3 is
the last byte of the second chunk, the off-by-one of claim C2), although
it does return 1 with one worker. -/
theorem single_line_files_eval :
    ThreadPool.read_lines_threaded [97, 98, 99] 1 = Except.ok 0 ∧
    ThreadPool.read_lines_threaded [97, 98, 99] 2 = Except.ok 0 ∧
    ThreadPool.read_lines_threaded [97, 98, 99, 10] 2 = Except.ok 0 ∧
    ThreadPool.read_lines_threaded [97, 98, 99, 10] 1 = Except.ok 1 := by
  refine ⟨rfl, rfl, rfl, rfl⟩

/-- Claim C4 (partitioner coverage): for every file size and every worker
count n at least 1, the chunk list has exactly n ranges, element i is the
chunk of loop iteration i, the first range starts at 0, the last range
ends at the file size, each range's end equals the next range's start, and
each range's start is at most its end; the process-based partition loop
builds the identical list.  This holds with no error also for file size 0
and for n exceeding the file size. -/
theorem partitioner_coverage (fs n : Nat) (h : 1 ≤ n) :
    (ThreadPool.mkChunks fs n).length = n ∧
    (∀ i, i < n →
      (ThreadPool.mkChunks fs n)[i]? = some (ThreadPool.chunkOf fs n i)) ∧
    (ThreadPool.chunkOf fs n 0).1 = 0 ∧
    (ThreadPool.chunkOf fs n (n - 1)).2 = fs ∧
    (∀ i, i + 1 < n →
      (ThreadPool.chunkOf fs n i).2 = (ThreadPool.chunkOf fs n (i + 1)).1) ∧
    (∀ i, i < n →
      (ThreadPool.chunkOf fs n i).1 ≤ (ThreadPool.chunkOf fs n i).2) ∧
    MultiprocessPool.mkChunks fs n = ThreadPool.mkChunks fs n := by
  refine ⟨by simp [ThreadPool.mkChunks], mkChunks_getElem fs n, ?_, ?_, ?_, ?_, rfl⟩
  · simp [ThreadPool.chunkOf]
  · simp [ThreadPool.chunkOf]
  · intro i hi
    simp only [ThreadPool.chunkOf]
    rw [if_neg (by omega)]
  · intro i hi
    simp only [ThreadPool.chunkOf]
    split
    · rename_i hlast
      have h1 : fs / n * n ≤ fs := Nat.div_mul_le_self fs n
      have h2 : i * (fs / n) ≤ n * (fs / n) :=
        Nat.mul_le_mul_right _ (Nat.le_of_lt hi)
      have h3 : n * (fs / n) = fs / n * n := Nat.mul_comm n (fs / n)
      omega
    · exact Nat.mul_le_mul_right _ (Nat.le_succ i)

/-- Witness for claim C4 at file size 7 and three workers. -/
theorem partitioner_coverage_witness :
    (ThreadPool.mkChunks 7 3).length = 3 ∧
    (ThreadPool.chunkOf 7 3 2).2 = 7 :=
  ⟨(partitioner_coverage 7 3 (by decide)).1,
   (partitioner_coverage 7 3 (by decide)).2.2.2.1⟩

/-- Claim C5 (empty file): the dispatch on a size-0 file returns 0 for
every worker count at least 1, and the chunk counter, a total function
that raises nothing, returns 0 on every empty range whose start equals
its end. -/
theorem empty_file_dispatch :
    (∀ n : Int, 1 ≤ n → ThreadPool.read_lines_threaded [] n = Except.ok 0) ∧
    (∀ (file : List Nat) (s : Nat),
      ThreadPool.count_lines_in_chunk file s s = 0) := by
  constructor
  · intro n hn
    unfold ThreadPool.read_lines_threaded
    rw [if_neg (by omega), if_neg (by omega)]
    rw [dispatch_ok]
    congr 1
    apply List.sum_eq_zero
    intro x hx
    rcases List.mem_map.mp hx with ⟨c, hc, rfl⟩
    rcases List.mem_map.mp hc with ⟨i, _, rfl⟩
    rw [show (List.length ([] : List Nat)) = 0 from rfl, chunkOf_empty]
    exact count_chunk_zero_of_le [] 0 0 le_rfl
  · exact fun file s => count_chunk_zero_of_le file s s le_rfl

/-- Witness for claim C5 at four workers and at a concrete empty range. -/
theorem empty_file_dispatch_witness :
    (1 : Int) ≤ 4 ∧ ThreadPool.read_lines_threaded [] 4 = Except.ok 0 ∧
    ThreadPool.count_lines_in_chunk [97, 10, 98] 2 2 = 0 :=
  ⟨by decide, empty_file_dispatch.1 4 (by decide),
   empty_file_dispatch.2 [97, 10, 98] 2⟩

/-- Claim C6 (fail-fast dispatch): if the chunk counter raises an I/O
exception on any single chunk of the partition, the whole dispatch raises
an exception and produces no count, so no partial sum built from other
workers is returned.  The counter is abstracted as a function that may
return an exception, since a pure byte-list file cannot itself fail;
the dispatcher skeleton is the one both parallel variants execute. -/
theorem dispatch_fail_fast (cnt : Nat → Nat → Except PyErr Nat)
    (fs n : Nat) (c : Nat × Nat) (hc : c ∈ ThreadPool.mkChunks fs n)
    (e : PyErr) (he : cnt c.1 c.2 = Except.error e) :
    ∃ e2, dispatch_map_sum cnt (ThreadPool.mkChunks fs n) = Except.error e2 :=
  dispatch_fail_fast_aux cnt (ThreadPool.mkChunks fs n) c hc e he

/-- Witness for claim C6: a counter failing on the first of two chunks of a
four-byte file makes the dispatch fail. -/
theorem dispatch_fail_fast_witness :
    ∃ e2, dispatch_map_sum
        (fun s _ => if s = 0 then Except.error PyErr.osError else Except.ok 0)
        (ThreadPool.mkChunks 4 2) = Except.error e2 :=
  dispatch_fail_fast
    (fun s _ => if s = 0 then Except.error PyErr.osError else Except.ok 0)
    4 2 (0, 2) (by decide) PyErr.osError rfl

/-- Counterexample to claim C7: an invalid range is not rejected by any
precondition check.  The counter called with start 5 past end 2 (start
greater than end) computes and returns the count 0, and called with end
100 beyond the file size 3 it silently reads only the bytes that exist and
returns 1, instead of rejecting either call. -/
theorem invalid_range_not_rejected :
    ThreadPool.count_lines_in_chunk [97, 98, 99, 10] 5 2 = 0 ∧
    ThreadPool.count_lines_in_chunk [97, 98, 10] 0 100 = 1 := by
  refine ⟨rfl, rfl⟩

/-- Claim C7 as amended: a worker count below 1 does make both dispatchers
fail before any counting (ZeroDivisionError from the chunk-size division
at 0, ValueError from the executor or pool constructor below 0), but the
chunk counter performs no validation at all: it is total, and on any range
with end at most start it silently returns 0, while an end beyond the file
size is silently clamped by the short read. -/
theorem invalid_args_amended :
    (∀ (file : List Nat) (n : Int), n < 1 →
      ∃ e, ThreadPool.read_lines_threaded file n = Except.error e ∧
        MultiprocessPool.read_lines_multiprocess file n = Except.error e) ∧
    (∀ (file : List Nat) (s e : Nat), e ≤ s →
      ThreadPool.count_lines_in_chunk file s e = 0) := by
  constructor
  · intro file n hn
    by_cases h0 : n = 0
    · subst h0
      exact ⟨PyErr.zeroDivisionError, rfl, rfl⟩
    · refine ⟨PyErr.valueError, ?_, ?_⟩
      · unfold ThreadPool.read_lines_threaded
        rw [if_neg h0, if_pos (by omega)]
      · unfold MultiprocessPool.read_lines_multiprocess
        rw [if_neg h0, if_pos (by omega)]
  · exact fun file s e h => count_chunk_zero_of_le file s e h

/-- Witness for the amended claim C7 at worker count 0 and at a concrete
inverted range. -/
theorem invalid_args_amended_witness :
    (∃ e, ThreadPool.read_lines_threaded [97] 0 = Except.error e ∧
      MultiprocessPool.read_lines_multiprocess [97] 0 = Except.error e) ∧
    ThreadPool.count_lines_in_chunk [97, 10] 2 1 = 0 :=
  ⟨invalid_args_amended.1 [97] 0 (by decide),
   invalid_args_amended.2 [97, 10] 2 1 (by decide)⟩

/-- Claim C8: the thread-based and process-based variants are
extensionally equal: the two chunk counters agree on every file and every
range, and the two dispatchers agree on every file and every worker
count, exceptions included. -/
theorem variants_extensionally_equal :
    (∀ (file : List Nat) (s e : Nat),
      MultiprocessPool.count_lines_in_chunk file s e =
        ThreadPool.count_lines_in_chunk file s e) ∧
    (∀ (file : List Nat) (n : Int),
      MultiprocessPool.read_lines_multiprocess file n =
        ThreadPool.read_lines_threaded file n) :=
  ⟨fun _ _ _ => rfl, fun _ _ => rfl⟩

/-- Claim C9: on a range starting at byte 0 the chunk counter returns
exactly the number of newline bytes at offsets below the range end, and a
dispatch with one worker returns the number of newline bytes of the whole
file, so a final line without terminator contributes nothing. -/
theorem start_zero_counts_newline_bytes :
    (∀ (file : List Nat) (e : Nat),
      ThreadPool.count_lines_in_chunk file 0 e = countNL (file.take e)) ∧
    (∀ file : List Nat,
      ThreadPool.read_lines_threaded file 1 = Except.ok (countNL file)) := by
  refine ⟨count_chunk_start_zero, fun file => ?_⟩
  unfold ThreadPool.read_lines_threaded
  rw [if_neg (by decide), if_neg (by decide)]
  rw [dispatch_ok]
  have hr : List.range 1 = [0] := rfl
  have hone : ThreadPool.mkChunks file.length (Int.toNat 1) =
      [(0, file.length)] := by
    simp [ThreadPool.mkChunks, ThreadPool.chunkOf, hr]
  rw [hone]
  simp [count_chunk_start_zero, List.take_length]

/-- Claim C10: the three sequential baseline counters agree on every file:
the buffered reader iterates the same lines as the basic reader for every
buffer size, and the chunked readlines loop returns batches that together
visit every line exactly once for every size hint. -/
theorem sequential_counters_agree :
    ∀ (file : List Nat) (buffer_size chunk_size : Nat),
      read_lines_buffered file buffer_size = read_lines_basic file ∧
      read_lines_chunked file chunk_size = read_lines_basic file := by
  intro file bs cs
  refine ⟨rfl, ?_⟩
  unfold read_lines_chunked read_lines_basic
  exact chunkedCount_len cs (textLines file)
